import Mathlib

/-
A Lean model of the firebase/snippets-go repository: the Go snippet
functions (initialization, custom-token minting, ID-token verification,
user CRUD, custom claims, paginated listing) and the identity-backend
client operations they call.  The snippet functions themselves are
embedded from the Go sources; the backend operations the snippets invoke
live in the external SDK, so those are modelled from the specification
(each such definition is marked "Modelled from the spec:").
-/

/-- A JSON-serializable claim value (the snippets use booleans and strings). -/
inductive JsonVal where
  | jbool (b : Bool)
  | jstr (s : String)
  | jnum (n : Int)
deriving DecidableEq, Repr

/-- The error taxonomy of the client wrapper (spec section 7). -/
inductive AuthError where
  | notFound
  | alreadyExists
  | invalidArgument
  | tokenExpired
  | tokenMalformed
  | tokenRevoked
  | configError
  | serviceUnavailable
  | timeout
  | backendFailure (msg : String)
deriving DecidableEq, Repr

/-- A user record as observed through getUser (spec section 3): uid plus
optional profile fields, flags, and the custom-claims mapping.  An empty
string models an unset optional string field; passwordHash stands in for
the write-only password material. -/
structure UserRecord where
  uid : String
  email : String
  phoneNumber : String
  passwordHash : String
  displayName : String
  photoURL : String
  disabled : Bool
  emailVerified : Bool
  customClaims : List (String × JsonVal)
deriving DecidableEq, Repr

/-- A builder-style partial update (spec section 3): every field is
optional-with-presence, so an absent field (none) is distinguished from a
field explicitly set to an empty or false value (some ""). -/
structure UserToUpdate where
  email : Option String := none
  phoneNumber : Option String := none
  password : Option String := none
  displayName : Option String := none
  photoURL : Option String := none
  disabled : Option Bool := none
  emailVerified : Option Bool := none
  customClaims : Option (List (String × JsonVal)) := none
deriving DecidableEq, Repr

/-- The backend's user store, keyed by uid. -/
abbrev Store := String → Option UserRecord

/-- Point update of the store at one uid. -/
def setUserF (st : Store) (uid : String) (r : UserRecord) : Store :=
  fun u => if u = uid then some r else st u

/-- Removal of one uid from the store. -/
def removeUserF (st : Store) (uid : String) : Store :=
  fun u => if u = uid then none else st u

/-- Modelled from the spec: getUser(uid) — the SDK call client.GetUser is
external; per spec section 4.2 it fails with NotFoundError when no record
with that uid exists. -/
def getUser (st : Store) (uid : String) : Except AuthError UserRecord :=
  match st uid with
  | none => .error .notFound
  | some r => .ok r

/-- Modelled from the spec: the effect of a partial update on a record —
a present field replaces the stored value, an absent field leaves it
untouched (spec section 3: "omitted fields leave backend state untouched;
explicitly-set-to-empty fields clear it"). -/
def applyUpdate (r : UserRecord) (d : UserToUpdate) : UserRecord :=
  { uid := r.uid
    email := d.email.getD r.email
    phoneNumber := d.phoneNumber.getD r.phoneNumber
    passwordHash := d.password.getD r.passwordHash
    displayName := d.displayName.getD r.displayName
    photoURL := d.photoURL.getD r.photoURL
    disabled := d.disabled.getD r.disabled
    emailVerified := d.emailVerified.getD r.emailVerified
    customClaims := d.customClaims.getD r.customClaims }

/-- Modelled from the spec: updateUser(uid, d) — the SDK call
client.UpdateUser is external; per spec section 4.2 only fields explicitly
present in the delta are changed, and the call fails with NotFoundError if
the uid does not exist.  Returns the new store and the updated record. -/
def updateUser (st : Store) (uid : String) (d : UserToUpdate) :
    Except AuthError (Store × UserRecord) :=
  match st uid with
  | none => .error .notFound
  | some r => .ok (setUserF st uid (applyUpdate r d), applyUpdate r d)

/-- Modelled from the spec: deleteUser(uid) — the SDK call
client.DeleteUser is external; per spec section 4.2 a delete of a missing
uid fails with NotFoundError (delete is not idempotent when retried). -/
def deleteUser (st : Store) (uid : String) : Except AuthError Store :=
  match st uid with
  | none => .error .notFound
  | some _ => .ok (removeUserF st uid)

/-- Modelled from the spec: setCustomClaims(uid, claimsOrNil) — the SDK
call client.SetCustomUserClaims is external; per spec section 4.2 a nil
claims value clears all custom claims and a present mapping fully replaces
the existing claim set (never a merge). -/
def setCustomClaims (st : Store) (uid : String)
    (claims : Option (List (String × JsonVal))) : Except AuthError Store :=
  match st uid with
  | none => .error .notFound
  | some r => .ok (setUserF st uid { r with customClaims := claims.getD [] })

-- Concrete test data used by the witnesses.

def wAlice : UserRecord :=
  { uid := "alice"
    email := "alice@example.com"
    phoneNumber := "+15555550100"
    passwordHash := "h0"
    displayName := "Alice"
    photoURL := "http://example.com/a.png"
    disabled := false
    emailVerified := false
    customClaims := [("admin", JsonVal.jbool true)] }

def wStore : Store := fun u => if u = "alice" then some wAlice else none

def wDelta : UserToUpdate :=
  { email := some "new@example.com"
    displayName := some ""
    disabled := some true }

def wAlice2 : UserRecord := applyUpdate wAlice wDelta

def wStore2 : Store := setUserF wStore "alice" wAlice2

def wStoreDel : Store := removeUserF wStore "alice"

def wStoreCleared : Store :=
  setUserF wStore "alice" { wAlice with customClaims := [] }

def wStoreReplaced : Store :=
  setUserF wStore "alice" { wAlice with customClaims := [("tier", JsonVal.jstr "gold")] }

/-- C1: a successful updateUser(u, d) on an existing user changes exactly
the fields explicitly present in d — every absent field keeps the value
getUser reported before the update, every present field takes the value
carried in d (so a field explicitly set to an empty or false value is
distinguished from an absent one) — and records of every other uid are
untouched. -/
theorem updateUser_frame (st : Store) (uid : String) (d : UserToUpdate)
    (r0 r1 : UserRecord) (st1 : Store)
    (h0 : getUser st uid = .ok r0)
    (h1 : updateUser st uid d = .ok (st1, r1)) :
    getUser st1 uid = .ok r1 ∧
    r1.uid = r0.uid ∧
    (d.email = none → r1.email = r0.email) ∧
    (∀ v, d.email = some v → r1.email = v) ∧
    (d.phoneNumber = none → r1.phoneNumber = r0.phoneNumber) ∧
    (∀ v, d.phoneNumber = some v → r1.phoneNumber = v) ∧
    (d.password = none → r1.passwordHash = r0.passwordHash) ∧
    (∀ v, d.password = some v → r1.passwordHash = v) ∧
    (d.displayName = none → r1.displayName = r0.displayName) ∧
    (∀ v, d.displayName = some v → r1.displayName = v) ∧
    (d.photoURL = none → r1.photoURL = r0.photoURL) ∧
    (∀ v, d.photoURL = some v → r1.photoURL = v) ∧
    (d.disabled = none → r1.disabled = r0.disabled) ∧
    (∀ b, d.disabled = some b → r1.disabled = b) ∧
    (d.emailVerified = none → r1.emailVerified = r0.emailVerified) ∧
    (∀ b, d.emailVerified = some b → r1.emailVerified = b) ∧
    (d.customClaims = none → r1.customClaims = r0.customClaims) ∧
    (∀ m, d.customClaims = some m → r1.customClaims = m) ∧
    (∀ u2, u2 ≠ uid → getUser st1 u2 = getUser st u2) := by
  cases hst : st uid with
  | none => simp [getUser, hst] at h0
  | some r =>
    simp only [getUser, hst, Except.ok.injEq] at h0
    subst h0
    simp only [updateUser, hst, Except.ok.injEq, Prod.mk.injEq] at h1
    obtain ⟨hst1, hr1⟩ := h1
    subst hst1
    subst hr1
    refine ⟨by simp [getUser, setUserF], rfl, ?_, ?_, ?_, ?_, ?_, ?_, ?_, ?_,
      ?_, ?_, ?_, ?_, ?_, ?_, ?_, ?_, ?_⟩
    all_goals try (intro h; simp [applyUpdate, h])
    all_goals try (intro v h; simp [applyUpdate, h]; done)
    intro u2 h
    simp only [getUser, setUserF]
    rw [if_neg h]

theorem updateUser_frame_witness :
    getUser wStore "alice" = .ok wAlice ∧
    updateUser wStore "alice" wDelta = .ok (wStore2, wAlice2) ∧
    getUser wStore2 "alice" = .ok wAlice2 ∧
    wAlice2.email = "new@example.com" ∧
    wAlice2.phoneNumber = wAlice.phoneNumber ∧
    wAlice2.displayName = "" ∧
    wAlice.displayName ≠ "" ∧
    wAlice2.disabled = true ∧
    wAlice2.customClaims = wAlice.customClaims ∧
    getUser wStore2 "bob" = getUser wStore "bob" :=
  ⟨rfl, rfl,
    (updateUser_frame wStore "alice" wDelta wAlice wAlice2 wStore2 rfl rfl).1,
    by decide, by decide, by decide, by decide, by decide, by decide,
    (updateUser_frame wStore "alice" wDelta wAlice wAlice2 wStore2 rfl
      rfl).2.2.2.2.2.2.2.2.2.2.2.2.2.2.2.2.2.2 "bob" (by decide)⟩

/-- C7: a successful deleteUser(u) leaves the store with no record for u,
so a subsequent getUser(u) yields NotFoundError, and a second deleteUser(u)
also yields NotFoundError rather than succeeding. -/
theorem deleteUser_semantics (st : Store) (uid : String) (st1 : Store)
    (h1 : deleteUser st uid = .ok st1) :
    getUser st1 uid = .error .notFound ∧ deleteUser st1 uid = .error .notFound := by
  cases hst : st uid with
  | none => simp [deleteUser, hst] at h1
  | some r =>
    simp only [deleteUser, hst, Except.ok.injEq] at h1
    subst h1
    constructor
    · simp [getUser, removeUserF]
    · simp [deleteUser, removeUserF]

theorem deleteUser_semantics_witness :
    deleteUser wStore "alice" = .ok wStoreDel ∧
    getUser wStoreDel "alice" = .error .notFound ∧
    deleteUser wStoreDel "alice" = .error .notFound :=
  ⟨rfl, (deleteUser_semantics wStore "alice" wStoreDel rfl).1,
    (deleteUser_semantics wStore "alice" wStoreDel rfl).2⟩

/-- C2: for an existing uid, setCustomClaims with nil fully clears the
custom claims (a subsequent getUser sees an empty claims mapping, whatever
the previous claims were), and setCustomClaims with a present mapping m
fully replaces the claim set with m (no merge with the old claims). -/
theorem setCustomClaims_semantics (st : Store) (uid : String) (r0 : UserRecord)
    (h0 : getUser st uid = .ok r0) :
    (∀ st1, setCustomClaims st uid none = .ok st1 →
      getUser st1 uid = .ok { r0 with customClaims := [] }) ∧
    (∀ m st2, setCustomClaims st uid (some m) = .ok st2 →
      getUser st2 uid = .ok { r0 with customClaims := m }) := by
  cases hst : st uid with
  | none => simp [getUser, hst] at h0
  | some r =>
    simp only [getUser, hst, Except.ok.injEq] at h0
    subst h0
    constructor
    · intro st1 h1
      simp only [setCustomClaims, hst, Option.getD_none, Except.ok.injEq] at h1
      subst h1
      simp [getUser, setUserF]
    · intro m st2 h2
      simp only [setCustomClaims, hst, Option.getD_some, Except.ok.injEq] at h2
      subst h2
      simp [getUser, setUserF]

theorem setCustomClaims_semantics_witness :
    getUser wStore "alice" = .ok wAlice ∧
    wAlice.customClaims ≠ [] ∧
    getUser wStoreCleared "alice" = .ok { wAlice with customClaims := [] } ∧
    getUser wStoreReplaced "alice" =
      .ok { wAlice with customClaims := [("tier", JsonVal.jstr "gold")] } :=
  ⟨rfl, by decide,
    (setCustomClaims_semantics wStore "alice" wAlice rfl).1 wStoreCleared rfl,
    (setCustomClaims_semantics wStore "alice" wAlice rfl).2
      [("tier", JsonVal.jstr "gold")] wStoreReplaced rfl⟩

-- Pagination (spec section 4.3; source loops: listUsers in both snippet files).

/-- The flat-iteration view: the iterator holds the users the backend has
not yet delivered, in the backend's stable order. -/
structure UserIterator where
  remaining : List UserRecord
deriving DecidableEq, Repr

/-- Outcome of one next() call: a user, end of sequence (iterator.Done in
the source), or a backend error. -/
inductive IterResult where
  | user (u : UserRecord) (it : UserIterator)
  | done
  | iterError (e : AuthError)
deriving DecidableEq, Repr

/-- Modelled from the spec: next() over a fixed user set — the iterator
returned by client.Users is external; per spec section 4.3 it yields each
user once in order and then end-of-sequence, and a fixed in-memory user
set gives it no failing case. -/
def UserIterator.next : UserIterator → IterResult
  | ⟨[]⟩ => .done
  | ⟨u :: rest⟩ => .user u ⟨rest⟩

/-- The explicit-paging view: remaining users plus the page size. -/
structure Pager where
  remaining : List UserRecord
  pageSize : Nat
deriving DecidableEq, Repr

/-- Outcome of one nextPage(pageSize) call: a page of users with the next
page token, or a backend error. -/
inductive PageResult where
  | page (users : List UserRecord) (nextPageToken : String) (p : Pager)
  | pageError (e : AuthError)
deriving DecidableEq, Repr

/-- Modelled from the spec: nextPage(pageSize) — iterator.NewPager is
external; per spec section 4.3 it returns at most pageSize records per
call and a nextPageToken that is empty exactly when no further pages
exist; a fixed in-memory user set gives it no failing case. -/
def Pager.nextPage (p : Pager) : PageResult :=
  let users := p.remaining.take p.pageSize
  let rest := p.remaining.drop p.pageSize
  .page users (if rest.isEmpty then "" else "next") ⟨rest, p.pageSize⟩

/-- The flat loop of listUsers: call next() until Done, collecting the
users read.  fuel bounds the number of rounds; on a backend error the
source terminates, modelled here as stopping. -/
def flatLoop : Nat → UserIterator → List UserRecord
  | 0, _ => []
  | fuel + 1, it =>
    match it.next with
    | .user u it2 => u :: flatLoop fuel it2
    | .done => []
    | .iterError _ => []

/-- The users the flat loop of listUsers reads from an iterator. -/
def collectFlat (it : UserIterator) : List UserRecord :=
  flatLoop (it.remaining.length + 1) it

/-- The paged loop of listUsers: call nextPage, collect the page, stop
when the returned token is empty. -/
def pagedLoop : Nat → Pager → List UserRecord
  | 0, _ => []
  | fuel + 1, p =>
    match p.nextPage with
    | .page users tok p2 => if tok = "" then users else users ++ pagedLoop fuel p2
    | .pageError _ => []

/-- The users the paged loop of listUsers reads from a pager. -/
def collectPaged (p : Pager) : List UserRecord :=
  pagedLoop (p.remaining.length + 1) p

theorem flatLoop_eq (fuel : Nat) :
    ∀ l : List UserRecord, l.length < fuel → flatLoop fuel ⟨l⟩ = l := by
  induction fuel with
  | zero => intro l hl; omega
  | succ n ih =>
    intro l hl
    cases l with
    | nil => rfl
    | cons u rest =>
      simp only [flatLoop, UserIterator.next]
      simp only [List.length_cons] at hl
      rw [ih rest (by omega)]

theorem pagedLoop_eq (ps : Nat) (hps : 0 < ps) (fuel : Nat) :
    ∀ l : List UserRecord, l.length < fuel → pagedLoop fuel ⟨l, ps⟩ = l := by
  induction fuel with
  | zero => intro l hl; omega
  | succ n ih =>
    intro l hl
    simp only [pagedLoop, Pager.nextPage]
    by_cases hrest : (l.drop ps).isEmpty
    · rw [if_pos hrest, if_pos rfl]
      exact List.take_of_length_le (List.drop_eq_nil_iff.mp (List.isEmpty_iff.mp hrest))
    · rw [if_neg hrest, if_neg (by simp)]
      have hlen : ps < l.length := by
        by_contra hc
        exact hrest (List.isEmpty_iff.mpr (List.drop_eq_nil_iff.mpr (by omega)))
      rw [ih (l.drop ps) (by simp only [List.length_drop]; omega)]
      exact List.take_append_drop ps l

/-- C4: over any fixed user set, the flat-iteration loop and the
explicit-page loop with a positive page size enumerate exactly the same
uid sequence, each equal to the full user list — so no duplicates are
introduced and nothing is omitted, and when the tenant's uids are
distinct both enumerations are duplicate-free. -/
theorem pagers_agree (l : List UserRecord) (ps : Nat) (hps : 0 < ps) :
    collectFlat ⟨l⟩ = collectPaged ⟨l, ps⟩ ∧
    collectPaged ⟨l, ps⟩ = l ∧
    List.map UserRecord.uid (collectFlat ⟨l⟩) =
      List.map UserRecord.uid (collectPaged ⟨l, ps⟩) ∧
    ((List.map UserRecord.uid l).Nodup →
      (List.map UserRecord.uid (collectPaged ⟨l, ps⟩)).Nodup) := by
  have hf : collectFlat ⟨l⟩ = l := flatLoop_eq (l.length + 1) l (by omega)
  have hp : collectPaged ⟨l, ps⟩ = l := pagedLoop_eq ps hps (l.length + 1) l (by omega)
  exact ⟨hf.trans hp.symm, hp, by rw [hf, hp], fun h => by rwa [hp]⟩

/-- A user record with uid "user-i" and default fields, for the witnesses. -/
def mkUser (i : Nat) : UserRecord :=
  { uid := "user-" ++ toString i
    email := ""
    phoneNumber := ""
    passwordHash := ""
    displayName := ""
    photoURL := ""
    disabled := false
    emailVerified := false
    customClaims := [] }

/-- 22 users: spans 3 page boundaries at pageSize 7 (pages of 7, 7, 7, 1). -/
def testUsers : List UserRecord := (List.range 22).map mkUser

theorem pagers_agree_witness :
    (0 : Nat) < 7 ∧
    collectFlat ⟨[]⟩ = collectPaged ⟨[], 7⟩ ∧
    collectFlat ⟨[mkUser 0]⟩ = collectPaged ⟨[mkUser 0], 7⟩ ∧
    collectFlat ⟨testUsers⟩ = collectPaged ⟨testUsers, 7⟩ ∧
    collectPaged ⟨testUsers, 7⟩ = testUsers :=
  ⟨by decide, (pagers_agree [] 7 (by decide)).1,
    (pagers_agree [mkUser 0] 7 (by decide)).1,
    (pagers_agree testUsers 7 (by decide)).1,
    (pagers_agree testUsers 7 (by decide)).2.1⟩

/-- C5: every nextPage(pageSize) call returns at most pageSize records
and keeps the page size; its nextPageToken is empty exactly when no
further users remain; and the caller-driven loop that stops on an empty
token (collectPaged) visits every page, reading exactly the full user
list, and then terminates. -/
theorem nextPage_contract (p : Pager) (hps : 0 < p.pageSize) :
    (∀ users tok p2, p.nextPage = .page users tok p2 →
      users.length ≤ p.pageSize ∧ (tok = "" ↔ p2.remaining = []) ∧
        p2.pageSize = p.pageSize) ∧
    collectPaged p = p.remaining := by
  constructor
  · intro users tok p2 h
    simp only [Pager.nextPage, PageResult.page.injEq] at h
    obtain ⟨hu, ht, hp2⟩ := h
    subst hu; subst ht; subst hp2
    refine ⟨by simp [List.length_take], ?_, rfl⟩
    by_cases hrest : (p.remaining.drop p.pageSize).isEmpty
    · simp [hrest, List.isEmpty_iff.mp hrest]
    · simp only [hrest, if_neg]
      simp only [List.isEmpty_iff] at hrest
      simp [hrest]
  · cases p with
    | mk l ps => exact pagedLoop_eq ps hps (l.length + 1) l (by omega)

theorem nextPage_contract_witness :
    (0 : Nat) < 7 ∧
    Pager.nextPage ⟨testUsers, 7⟩ =
      PageResult.page (testUsers.take 7) "next" ⟨testUsers.drop 7, 7⟩ ∧
    (testUsers.take 7).length ≤ 7 ∧
    ("next" = "" ↔ testUsers.drop 7 = []) ∧
    collectPaged ⟨testUsers, 7⟩ = testUsers :=
  ⟨by decide, by decide,
    ((nextPage_contract ⟨testUsers, 7⟩ (by decide)).1 (testUsers.take 7) "next"
      ⟨testUsers.drop 7, 7⟩ (by decide)).1,
    ((nextPage_contract ⟨testUsers, 7⟩ (by decide)).1 (testUsers.take 7) "next"
      ⟨testUsers.drop 7, 7⟩ (by decide)).2.1,
    (nextPage_contract ⟨testUsers, 7⟩ (by decide)).2⟩

/-- C6: for a tenant with zero users, the first next() call returns
end-of-sequence (never a user, never an error), and for every page size
the first nextPage call returns the empty record sequence with an empty
nextPageToken (never an error). -/
theorem empty_listing :
    UserIterator.next ⟨[]⟩ = IterResult.done ∧
    (∀ e, UserIterator.next ⟨[]⟩ ≠ IterResult.iterError e) ∧
    (∀ ps, Pager.nextPage ⟨[], ps⟩ = PageResult.page [] "" ⟨[], ps⟩) ∧
    (∀ ps e, Pager.nextPage ⟨[], ps⟩ ≠ PageResult.pageError e) := by
  refine ⟨rfl, ?_, ?_, ?_⟩
  · intro e h
    exact IterResult.noConfusion h
  · intro ps
    simp [Pager.nextPage]
  · intro ps e h
    simp only [Pager.nextPage] at h
    exact PageResult.noConfusion h

-- Snippet embeddings: error propagation (sources: src/admin/main.go and
-- the two log.Fatal-style files in src/unnamed/part_000).

/-- An app handle (firebase.App): resolved configuration. -/
structure App where
  credentialsFile : Option String
deriving DecidableEq, Repr

/-- An auth client handle (auth.Client). -/
structure AuthClient where
  ready : Bool
deriving DecidableEq, Repr

/-- The observable outcome of a log.Fatal-style snippet: a normal result,
or process termination with the logged message (log.Fatalf prints and
calls os.Exit, so the caller never regains control). -/
inductive SnippetOutcome (α : Type) where
  | ok (a : α)
  | fatal (msg : String)
deriving DecidableEq, Repr

/-- Embeds initializeAppWithServiceAccount from the log.Fatal-style files
(first file lines 36-46 of src/unnamed/part_000): the firebase.NewApp
backend result is a parameter; on error the snippet calls log.Fatalf and
the process terminates. -/
def initializeAppWithServiceAccountFatal (newAppResult : Except String App) :
    SnippetOutcome App :=
  match newAppResult with
  | .error e => .fatal ("error initializing app: " ++ e)
  | .ok app => .ok app

/-- Embeds initializeAppWithServiceAccount from src/admin/main.go lines
35-45: on error the snippet returns a wrapped error to the caller. -/
def initializeAppWithServiceAccountErr (newAppResult : Except String App) :
    Except String App :=
  match newAppResult with
  | .error e => .error ("error initializing app: " ++ e)
  | .ok app => .ok app

/-- Embeds createCustomToken from the log.Fatal-style files (second file
lines 548-564 of src/unnamed/part_000): the app.Auth and
client.CustomToken backend results are parameters; on either error the
snippet calls log.Fatalf and the process terminates. -/
def createCustomTokenFatal (authResult : Except String AuthClient)
    (mintResult : Except String String) : SnippetOutcome String :=
  match authResult with
  | .error e => .fatal ("error getting Auth client: " ++ e)
  | .ok _ =>
    match mintResult with
    | .error e => .fatal ("error minting custom token: " ++ e)
    | .ok token => .ok token

/-- Embeds createCustomToken from src/admin/main.go lines 126-142: on
either error the snippet returns a wrapped error to the caller. -/
def createCustomTokenErr (authResult : Except String AuthClient)
    (mintResult : Except String String) : Except String String :=
  match authResult with
  | .error e => .error ("error getting Auth client: " ++ e)
  | .ok _ =>
    match mintResult with
    | .error e => .error ("error minting custom token: " ++ e)
    | .ok token => .ok token

/-- C3 counterexample: the claim says no operation ever terminates the
caller's process on a backend failure, but the log.Fatal-style variants
do — at the concrete failing backend results below, both cited snippet
functions end in process termination, not a returned error. -/
theorem c3_counterexample :
    initializeAppWithServiceAccountFatal (Except.error "credentials unreadable")
      = SnippetOutcome.fatal "error initializing app: credentials unreadable" ∧
    createCustomTokenFatal (Except.ok ⟨true⟩) (Except.error "backend 500")
      = SnippetOutcome.fatal "error minting custom token: backend 500" :=
  ⟨rfl, rfl⟩

/-- C3 (amended): the returned-error variants in src/admin/main.go return
a wrapped error value to the caller on every failing backend call and
never terminate the process, while the log.Fatal variants in the other
files terminate the process on the same failures. -/
theorem c3_amended (e : String) :
    initializeAppWithServiceAccountErr (Except.error e)
      = Except.error ("error initializing app: " ++ e) ∧
    (∀ c, createCustomTokenErr (Except.ok c) (Except.error e)
      = Except.error ("error minting custom token: " ++ e)) ∧
    createCustomTokenErr (Except.error e) (Except.error e)
      = Except.error ("error getting Auth client: " ++ e) ∧
    initializeAppWithServiceAccountFatal (Except.error e)
      = SnippetOutcome.fatal ("error initializing app: " ++ e) :=
  ⟨rfl, fun _ => rfl, rfl, rfl⟩

-- Snippet embeddings: the builder-style createUserWUID and updateUser
-- (first file of src/unnamed/part_000, lines 255-271 and 273-296).

/-- Embeds createUserWUID (builder variant): the two client.CreateUser
call results are parameters r1 and r2.  The Go code binds both calls'
errors to the same err variable and checks err only after the second
call; the first call's record u is only logged, and u2 is returned. -/
def createUserWUID (r1 r2 : Except String UserRecord) :
    SnippetOutcome UserRecord :=
  match r2 with
  | .error e => .fatal ("error creating user: " ++ e)
  | .ok u2 => .ok u2

/-- Embeds the builder-variant updateUser: the two client.UpdateUser call
results are parameters r1 and r2.  Both errors are bound to the same err
variable, checked only after the second call, and the pair (u, u2) is
returned — the first component nil when the first call failed. -/
def updateUserSnippet (r1 r2 : Except String UserRecord) :
    SnippetOutcome (Option UserRecord × Option UserRecord) :=
  match r2 with
  | .error e => .fatal ("error updating user: " ++ e)
  | .ok u2 => .ok (r1.toOption, some u2)

/-- C10: in the builder-style variant, when the first CreateUser or
UpdateUser call fails and the second succeeds, the first call's error is
silently discarded and the function completes normally as if both calls
succeeded (returning the second call's record, with a nil first record in
updateUser's pair); only the second call's error is ever checked. -/
theorem builder_error_discarded (e : String) (u2 : UserRecord) :
    createUserWUID (Except.error e) (Except.ok u2) = SnippetOutcome.ok u2 ∧
    (∀ err, createUserWUID (Except.error e) (Except.ok u2)
      ≠ SnippetOutcome.fatal err) ∧
    updateUserSnippet (Except.error e) (Except.ok u2)
      = SnippetOutcome.ok (none, some u2) ∧
    (∀ u1, createUserWUID (Except.ok u1) (Except.error e)
      = SnippetOutcome.fatal ("error creating user: " ++ e)) :=
  ⟨rfl, fun _ h => SnippetOutcome.noConfusion h, rfl, fun _ => rfl⟩

-- Token verification and custom-token minting (spec sections 4.2 and 8).

/-- A decoded ID token: subject uid, issue and expiry instants, and the
custom claims. -/
structure DecodedToken where
  sub : String
  iat : Nat
  exp : Nat
  claims : List (String × JsonVal)
deriving DecidableEq, Repr

/-- A serialized JWT has exactly three dot-separated segments; this
syntactic shape check is what a string like "not-a-jwt" fails. -/
def jwtShaped (t : String) : Bool := t.data.count '.' == 2

/-- Modelled from the spec: verifyIDToken — the SDK call
client.VerifyIDToken is external; per spec section 4.2 verification fails
closed with TokenMalformedError, TokenExpiredError or TokenRevokedError
as distinct conditions.  decodeJwt abstracts the backend's signature
check and payload decoding, revoked the backend's revocation list. -/
def verifyIDToken (decodeJwt : String → Option DecodedToken)
    (revoked : List String) (now : Nat) (t : String) :
    Except AuthError DecodedToken :=
  if ¬ jwtShaped t then .error .tokenMalformed
  else
    match decodeJwt t with
    | none => .error .tokenMalformed
    | some tok =>
      if tok.exp ≤ now then .error .tokenExpired
      else if revoked.contains t then .error .tokenRevoked
      else .ok tok

/-- C8: on any syntactically invalid token string, verifyIDToken fails
closed with the specific TokenMalformedError — whatever the backend's
decoder, revocation list and clock — never with success and never with an
undifferentiated error. -/
theorem verifyIDToken_malformed (decodeJwt : String → Option DecodedToken)
    (revoked : List String) (now : Nat) (t : String)
    (h : jwtShaped t = false) :
    verifyIDToken decodeJwt revoked now t = .error .tokenMalformed := by
  simp [verifyIDToken, h]

theorem verifyIDToken_malformed_witness :
    jwtShaped "not-a-jwt" = false ∧
    verifyIDToken (fun _ => none) [] 0 "not-a-jwt" = .error .tokenMalformed :=
  ⟨by decide, verifyIDToken_malformed (fun _ => none) [] 0 "not-a-jwt" (by decide)⟩

/-- The decoded payload of a minted custom token. -/
structure CustomTokenPayload where
  sub : String
  claims : List (String × JsonVal)
deriving DecidableEq, Repr

/-- The backend's uid length bound (spec section 4.2). -/
def maxUidLength : Nat := 128

/-- The backend-reserved claim names named by the spec (section 4.2). -/
def reservedClaims : List String := ["sub", "iat", "exp"]

/-- Modelled from the spec: mintCustomToken(uid, claims) — the SDK call
client.CustomTokenWithClaims is external; per spec section 4.2 uid must
be non-empty and within the length bound and the claims must not use
reserved names, else InvalidArgumentError; on success the minted token
decodes to sub = uid with the given claims embedded. -/
def mintCustomToken (uid : String)
    (claims : Option (List (String × JsonVal))) :
    Except AuthError CustomTokenPayload :=
  if uid = "" then .error .invalidArgument
  else if maxUidLength < uid.length then .error .invalidArgument
  else if (claims.getD []).any (fun p => reservedClaims.contains p.1) then
    .error .invalidArgument
  else .ok ⟨uid, claims.getD []⟩

/-- The claims literal of createCustomTokenWithClaims in the sources:
map[string]interface with premiumAccount set to true. -/
def snippetClaims : List (String × JsonVal) := [("premiumAccount", JsonVal.jbool true)]

/-- The uid literal of createCustomTokenWithClaims in the sources. -/
def snippetUid : String := "some-uid"

/-- C9: when uid is non-empty, within the backend's 128-character bound,
and the claims mapping uses no backend-reserved claim name, minting
succeeds and the token's decoded payload has sub equal to the uid and
embeds exactly the given claims. -/
theorem mintCustomToken_ok (uid : String) (claims : List (String × JsonVal))
    (h1 : uid ≠ "") (h2 : uid.length ≤ maxUidLength)
    (h3 : claims.any (fun p => reservedClaims.contains p.1) = false) :
    mintCustomToken uid (some claims) = .ok ⟨uid, claims⟩ := by
  simp only [mintCustomToken, Option.getD_some]
  rw [if_neg h1, if_neg (Nat.not_lt.mpr h2), h3]
  rfl

theorem mintCustomToken_ok_witness :
    snippetUid ≠ "" ∧
    snippetUid.length ≤ maxUidLength ∧
    snippetClaims.any (fun p => reservedClaims.contains p.1) = false ∧
    mintCustomToken snippetUid (some snippetClaims)
      = .ok ⟨snippetUid, snippetClaims⟩ ∧
    snippetUid = "some-uid" ∧
    snippetClaims.lookup "premiumAccount" = some (JsonVal.jbool true) :=
  ⟨by decide, by decide, by decide,
    mintCustomToken_ok snippetUid snippetClaims (by decide) (by decide) (by decide),
    rfl, rfl⟩
